import Mathlib

/-!
Verification of the vector post-processing pipeline in
`dataviz/tif2vectors2.py` (raster-mask → cleaned vector polygon layers).

The Python functions are shallowly embedded as executable Lean
definitions.  Geometry-engine primitives (GEOS `MakeValid`, `IsValid` on
assembled geometries, `SimplifyPreserveTopology`, area computation,
polygonization of a nonempty mask) are external collaborators of the
pipeline; they enter the embedding as explicit function parameters, and
every theorem quantifies over them, so the proved properties hold for
any behaviour of the engine.  Machine floats of the source are modelled
as exact rationals.
-/

namespace TifVectors

/-! ## Basic data model: geometries, features, attributes -/

/-- Flat OGR geometry types relevant to the pipeline
(`ogr.GT_Flatten` has already been applied). -/
inductive GeomType where
  | polygon
  | multiPolygon
  | geometryCollection
  | lineString
  | point
  | other
deriving DecidableEq, Repr

/-- A member geometry of a geometry collection, as observed through the
OGR calls the code makes on it: flat type, emptiness, validity. -/
structure SimpleGeom where
  gtype : GeomType
  empty : Bool
  valid : Bool
deriving DecidableEq, Repr

/-- A geometry, as observed through the OGR calls the code makes on it:
flat geometry type (`GT_Flatten(GetGeometryType())`), `IsEmpty()`,
`IsValid()`, and — for collections / multi-polygons — the member list
(`GetGeometryCount()` / `GetGeometryRef(i)`).  `Clone()` is the
identity in this model. -/
structure Geom where
  gtype : GeomType
  empty : Bool
  valid : Bool
  parts : List SimpleGeom := []
deriving DecidableEq, Repr

/-- A feature: an optional geometry (`GetGeometryRef()` may be null)
plus an attribute map, modelled as an association list from field name
to integer value (the only schema of this program is the single
integer field DN). -/
structure Feature where
  geom : Option Geom
  attrs : List (String × Int)
deriving DecidableEq, Repr

/-- Model of `feature.GetField(name)`: look the field up in the attribute map;
an unset integer field reads as 0 in OGR. -/
def getField (f : Feature) (n : String) : Int :=
  (f.attrs.lookup n).getD 0

/-- The attribute dictionary every stage builds for a feature:
`attrs = \x7bname: feature.GetField(name) for name in field_names\x7d`
where `field_names` are the schema fields of the layer definition. -/
def attrsOf (schema : List String) (f : Feature) : List (String × Int) :=
  schema.map (fun n => (n, getField f n))

/-! ## Thresholder (`run_processing` lines 753–754, `initial_polygonize_band`) -/

/-- Python `int()` applied to an exact rational: truncation toward zero. -/
def pyIntTrunc (q : ℚ) : ℤ :=
  if 0 ≤ q then ⌊q⌋ else ⌈q⌉

/-- The pixel-value cutoff the code computes:
`max(0, min(255, int(percent / 100.0 * 255)))`. -/
def thresholdCutoff (percent : ℚ) : ℤ :=
  max 0 (min 255 (pyIntTrunc (percent / 100 * 255)))

/-- The cutoff as the spec words it:
`clamp(round(percent / 100 * 255), 0, 255)`. -/
def thresholdCutoffSpec (percent : ℚ) : ℤ :=
  max 0 (min 255 (round (percent / 100 * 255)))

/-- Mask membership (`band_array >= threshold_value`): a pixel of
integer value `v` belongs to the binary mask iff `v ≥ cutoff`. -/
def maskMember (cutoff : ℤ) (v : ℤ) : Bool :=
  cutoff ≤ v

/-! ## Chaikin corner cutting (`_apply_chaikin_to_ring`) -/

/-- A 2-D point with exact rational coordinates. -/
abbrev Pt := ℚ × ℚ

/-- The two points one Chaikin step emits for the segment `(p, q)`:
`R = 0.75·p + 0.25·q` then `Q = 0.25·p + 0.75·q`, in that order
(the body of the `for i in range(num_pts - 1)` loop). -/
def chaikinPair (p q : Pt) : List Pt :=
  [ (3/4 * p.1 + 1/4 * q.1, 3/4 * p.2 + 1/4 * q.2),
    (1/4 * p.1 + 3/4 * q.1, 1/4 * p.2 + 3/4 * q.2) ]

/-- All points emitted in one iteration, in original segment order:
the loop runs over consecutive pairs `(P[i], P[i+1])`, `i = 0..n-2`. -/
def chaikinSegPoints : List Pt → List Pt
  | p :: q :: rest => chaikinPair p q ++ chaikinSegPoints (q :: rest)
  | _ => []

/-- The emitted points written exactly as the spec words them: for `i`
in `0..n-2` emit the pair for `(P[i], P[i+1])`, concatenated in segment
order. -/
def chaikinSegPointsSpec (pts : List Pt) : List Pt :=
  (List.range (pts.length - 1)).flatMap
    (fun i => chaikinPair (pts.getD i (0, 0)) (pts.getD (i + 1) (0, 0)))

/-- The iteration loop of `_apply_chaikin_to_ring`, also reporting
whether the in-loop early-stop branch
(the `num_pts < 4 … break` warning) was ever taken. -/
def chaikinLoop : List Pt → Nat → List Pt × Bool
  | pts, 0 => (pts, false)
  | pts, k + 1 =>
    if pts.length < 4 then (pts, true)
    else
      match chaikinSegPoints pts with
      | [] => (pts, false)
      | t0 :: ts => chaikinLoop ((t0 :: ts) ++ [t0]) k

/-- Model of `_apply_chaikin_to_ring(points, iterations)`: return unchanged when
fewer than 4 points, else run the iteration loop. -/
def applyChaikinToRing (points : List Pt) (iterations : Nat) : List Pt :=
  if points.length < 4 then points
  else (chaikinLoop points iterations).1

/-- One loop iteration on a list of at least 4 points: emit all segment
pairs, then close the new sequence by appending its own first point. -/
def chaikinIterOnce (pts : List Pt) : List Pt :=
  match chaikinSegPoints pts with
  | [] => pts
  | t0 :: ts => (t0 :: ts) ++ [t0]

/-! ## GeometryRepairStage (`fix_layer_geometries`) -/

/-- Per-feature outcome of the repair logic: the feature is kept with a
(possibly repaired) geometry — the flag records whether
`repaired_count` was incremented — or the feature is discarded. -/
inductive FixOutcome where
  | kept (g : Geom) (repaired : Bool)
  | discard
deriving DecidableEq, Repr

/-- The member filter of the geometry-collection branch: keep a part
iff it is present, non-empty, of flat type polygon, and valid
(`if part and not part.IsEmpty() and GT_Flatten(...) == wkbPolygon and
part.IsValid()`). -/
def validPolygonParts (repaired : Geom) : List SimpleGeom :=
  repaired.parts.filter (fun p => !p.empty && p.gtype == GeomType.polygon && p.valid)

/-- The per-geometry decision logic of `fix_layer_geometries` for a
present geometry.  `targetFlat` is the flattened layer geometry type;
`makeValid` is the engine repair primitive (`none` models both a crash
of `MakeValid()` and a null result); `mpIsValid` models the engine's
`IsValid()` verdict on the target-typed geometry assembled from the
extracted collection members. -/
def fixGeometry (targetFlat : GeomType) (makeValid : Geom → Option Geom)
    (mpIsValid : List SimpleGeom → Bool) (geom : Geom) : FixOutcome :=
  if geom.empty then FixOutcome.discard
  else if geom.valid then FixOutcome.kept geom false
  else
    match makeValid geom with
    | none => FixOutcome.discard
    | some repaired =>
      if repaired.empty then FixOutcome.discard
      else if repaired.gtype = targetFlat then
        if repaired.valid then FixOutcome.kept repaired true else FixOutcome.discard
      else if repaired.gtype = GeomType.geometryCollection ∧
          (targetFlat = GeomType.polygon ∨ targetFlat = GeomType.multiPolygon) then
        if validPolygonParts repaired = [] then FixOutcome.discard
        else if mpIsValid (validPolygonParts repaired) then
          FixOutcome.kept (Geom.mk targetFlat false true (validPolygonParts repaired)) true
        else FixOutcome.discard
      else FixOutcome.discard

/-- The feature-level wrapper: a null geometry is discarded without a
repair attempt. -/
def fixFeatureGeom (targetFlat : GeomType) (makeValid : Geom → Option Geom)
    (mpIsValid : List SimpleGeom → Bool) : Option Geom → FixOutcome
  | none => FixOutcome.discard
  | some g => fixGeometry targetFlat makeValid mpIsValid g

/-- The candidate set `processed_data` that `fix_layer_geometries`
hands to `clear_and_repopulate_layer`: one entry per kept feature, in
input order, carrying the fixed geometry and the full attribute
dictionary read from the schema fields. -/
def fixCandidates (targetFlat : GeomType) (makeValid : Geom → Option Geom)
    (mpIsValid : List SimpleGeom → Bool) (schema : List String)
    (features : List Feature) : List Feature :=
  features.filterMap (fun f =>
    match fixFeatureGeom targetFlat makeValid mpIsValid f.geom with
    | FixOutcome.kept g _ => some { geom := some g, attrs := attrsOf schema f }
    | FixOutcome.discard => none)

/-! ## FeatureLayer transactional rewrite (`clear_and_repopulate_layer`)

The layer is a committed feature list; the GPKG transaction is modelled
by returning either the new committed content (commit) or the pre-call
content (rollback).  The behaviour of each engine call is supplied by
an environment: `DeleteFeature` / `CreateFeature` may return an OGR
error code (the code logs and continues) or raise an exception (the
code rolls back and returns failure); `SetGeometry` may fail (the
candidate is skipped); `StartTransaction` and `CommitTransaction` may
raise. -/

/-- Result of one fallible OGR call: success, a non-`OGRERR_NONE`
return code, or a raised exception. -/
inductive OpResult where
  | ok
  | err
  | exn
deriving DecidableEq, Repr

/-- Engine behaviour during one `clear_and_repopulate_layer` call.
Delete results are indexed by position in the collected FID list;
set-geometry and create results by position in `features_data`. -/
structure RewriteEnv where
  startOk : Bool
  deleteRes : Nat → OpResult
  setGeomRes : Nat → OpResult
  createRes : Nat → OpResult
  commitOk : Bool

/-- The clearing loop: delete every existing feature.  `none` models an
exception escaping the loop; otherwise the survivors (features whose
delete returned an error code and which therefore remain) are
returned in order. -/
def runClear (deleteRes : Nat → OpResult) : List Feature → Nat → Option (List Feature)
  | [], _ => some []
  | f :: rest, i =>
    match deleteRes i with
    | OpResult.exn => none
    | OpResult.ok => runClear deleteRes rest (i + 1)
    | OpResult.err => (runClear deleteRes rest (i + 1)).map (f :: ·)

/-- The clearing phase including `StartTransaction` (both live inside
the same `try`). -/
def clearPhase (env : RewriteEnv) (layer : List Feature) : Option (List Feature) :=
  if env.startOk then runClear env.deleteRes layer 0 else none

/-- The adding loop over `features_data`: skip null/empty geometries,
skip candidates whose `SetGeometry` fails, append candidates whose
`CreateFeature` succeeds, and set exactly the attributes whose field
name exists in the schema (`field_index >= 0`).  `none` models an
exception escaping the loop. -/
def runAdd (env : RewriteEnv) (schema : List String) :
    List Feature → Nat → Option (List Feature)
  | [], _ => some []
  | d :: rest, j =>
    match d.geom with
    | none => runAdd env schema rest (j + 1)
    | some g =>
      if g.empty then runAdd env schema rest (j + 1)
      else
        match env.setGeomRes j with
        | OpResult.exn => none
        | OpResult.err => runAdd env schema rest (j + 1)
        | OpResult.ok =>
          match env.createRes j with
          | OpResult.exn => none
          | OpResult.err => runAdd env schema rest (j + 1)
          | OpResult.ok =>
            (runAdd env schema rest (j + 1)).map
              (({ geom := some g,
                  attrs := d.attrs.filter (fun p => schema.contains p.1) } : Feature) :: ·)

/-- Model of `clear_and_repopulate_layer`: returns the boolean result of the
call together with the layer content after the call. -/
def clearAndRepopulate (env : RewriteEnv) (schema : List String)
    (layer : List Feature) (featuresData : List Feature) : Bool × List Feature :=
  if featuresData.length = 0 ∧ layer.length = 0 then (true, layer)
  else
    match clearPhase env layer with
    | none => (false, layer)
    | some survivors =>
      match runAdd env schema featuresData 0 with
      | none => (false, layer)
      | some added =>
        if env.commitOk then (true, survivors ++ added) else (false, layer)

/-- The fate of one candidate during an all-successful repopulation: a
null or empty geometry is skipped, otherwise a new feature is created
whose attributes are the candidate attributes restricted to schema
fields. -/
def repopulateOne (schema : List String) (d : Feature) : Option Feature :=
  match d.geom with
  | none => none
  | some g =>
    if g.empty then none
    else some { geom := some g, attrs := d.attrs.filter (fun p => schema.contains p.1) }

/-- The repopulation phase when every engine call succeeds.  This is
the layer content a stage leaves behind on a fully successful
rewrite. -/
def repopulateData (schema : List String) (data : List Feature) : List Feature :=
  data.filterMap (repopulateOne schema)

/-! ## The per-stage candidate sets and stage results

Each stage reads every feature (attribute dictionary over the schema
fields), computes a candidate geometry, and rewrites the layer through
`clear_and_repopulate_layer`.  The stage results below give the layer
content after a fully successful rewrite. -/

/-- Per-feature geometry computation of `simplify_layer`: a null
geometry stays null; otherwise apply the engine primitive
(`SimplifyPreserveTopology`, modelled by `simplifyFn`, `none` = raised
exception) and fall back to the original clone when it fails or
yields an empty result. -/
def simplifyGeomOf (simplifyFn : Geom → Option Geom) : Option Geom → Option Geom
  | none => none
  | some g =>
    match simplifyFn g with
    | some s => if s.empty then some g else some s
    | none => some g

/-- Layer content after a successful `simplify_layer` run: tolerance
≤ 0 (and an already empty layer) skip the stage with the layer
unchanged. -/
def simplifyStage (tolerance : ℚ) (simplifyFn : Geom → Option Geom)
    (schema : List String) (features : List Feature) : List Feature :=
  if tolerance ≤ 0 then features
  else if features.length = 0 then features
  else
    repopulateData schema
      (features.map (fun f =>
        { geom := simplifyGeomOf simplifyFn f.geom, attrs := attrsOf schema f }))

/-- Keep decision of `filter_layer_by_min_area` for one feature:
a present, non-empty geometry whose area computation succeeds and
returns at least `min_area` is kept; everything else is removed
(`areaFn` models `geom.Area()`, `none` = raised exception). -/
def areaKeep (minArea : ℚ) (areaFn : Geom → Option ℚ) : Option Geom → Bool
  | none => false
  | some g =>
    if g.empty then false
    else
      match areaFn g with
      | some a => minArea ≤ a
      | none => false

/-- Layer content after a successful `filter_layer_by_min_area` run:
min_area ≤ 0 (and an already empty layer) skip the stage. -/
def areaFilterStage (minArea : ℚ) (areaFn : Geom → Option ℚ)
    (schema : List String) (features : List Feature) : List Feature :=
  if minArea ≤ 0 then features
  else if features.length = 0 then features
  else
    repopulateData schema
      ((features.filter (fun f => areaKeep minArea areaFn f.geom)).map
        (fun f => { geom := f.geom, attrs := attrsOf schema f }))

/-- Layer content after a successful `fix_layer_geometries` run. -/
def fixStage (targetFlat : GeomType) (makeValid : Geom → Option Geom)
    (mpIsValid : List SimpleGeom → Bool) (schema : List String)
    (features : List Feature) : List Feature :=
  if features.length = 0 then features
  else repopulateData schema (fixCandidates targetFlat makeValid mpIsValid schema features)

/-- Per-feature geometry computation of `smooth_layer_chaikin`: a null
or empty geometry yields no candidate geometry; otherwise the geometry
is transformed (every code path of the smoothing body — smoothed
result, MakeValid fallback, or original clone — produces some present
geometry, abstracted here as `smoothFn`), and the attribute dictionary
is carried over unchanged. -/
def smoothGeomOf (smoothFn : Geom → Geom) : Option Geom → Option Geom
  | none => none
  | some g => if g.empty then none else some (smoothFn g)

/-- Layer content after a successful `smooth_layer_chaikin` run. -/
def smoothStage (smoothFn : Geom → Geom) (schema : List String)
    (features : List Feature) : List Feature :=
  if features.length = 0 then features
  else
    repopulateData schema
      (features.map (fun f =>
        { geom := smoothGeomOf smoothFn f.geom, attrs := attrsOf schema f }))

/-! ## ClassifyStage (`filter_layer_by_dn`) -/

/-- Keep decision of the DN filter: the DN field equals the target
value and the geometry is present, non-empty and valid. -/
def dnKeep (keepVal : Int) (f : Feature) : Bool :=
  getField f "DN" == keepVal &&
    (match f.geom with
     | some g => !g.empty && g.valid
     | none => false)

/-- Model of `filter_layer_by_dn`: the value `none` models the immediate failure return
(`Error: Field DN not found`).  An empty layer returns success before
the schema is consulted; if every feature meets the criteria the
rewrite is skipped and the layer is returned as-is; otherwise the kept
candidates are repopulated. -/
def filterLayerByDn (schema : List String) (keepVal : Int)
    (features : List Feature) : Option (List Feature) :=
  if features.length = 0 then some features
  else if !schema.contains "DN" then none
  else
    let kept := features.filter (dnKeep keepVal)
    if kept.length = features.length then some features
    else
      some (repopulateData schema
        (kept.map (fun f => { geom := f.geom, attrs := attrsOf schema f })))

/-! ## RasterValidator, extraction and the orchestrator (`run_processing`)

The control flow of `run_processing` around validation, output-container
creation, per-raster extraction and the per-class post-processing gate,
with the engine operations supplied as oracles. -/

/-- An input raster as the pipeline observes it: whether `gdal.Open`
succeeds, whether a valid SRS (with non-empty WKT) can be obtained,
the band count, an opaque CRS descriptor (`IsSame` is equality of
descriptors), and the pixel values of bands 1 (roads) and 2
(buildings). -/
structure Raster where
  openable : Bool
  srsOk : Bool
  bands : Nat
  srs : Nat
  band1 : List Nat
  band2 : List Nat

/-- Per-raster checks of the validation loop: the raster opens, yields
a valid SRS, and has at least 2 bands. -/
def rasterOk (r : Raster) : Bool :=
  r.openable && r.srsOk && decide (2 ≤ r.bands)

/-- The input-raster validation of `run_processing` (lines 821–880):
fail on an empty list; check the first raster; for every subsequent
raster check it and compare its CRS with the first raster's
(`target_srs.IsSame(...)`); any raised error makes the whole
validation fail. -/
def validateRasters (rs : List Raster) : Bool :=
  match rs with
  | [] => false
  | r0 :: rest => rasterOk r0 && rest.all (fun r => rasterOk r && (r.srs == r0.srs))

/-- Number of band pixels meeting the cutoff
(`np.sum(band_array >= threshold_value)`). -/
def countMeeting (cutoff : Nat) (band : List Nat) : Nat :=
  (band.filter (fun v => cutoff ≤ v)).length

/-- Model of `initial_polygonize_band` on one band of one raster: if zero pixels
meet the cutoff, report success with an empty contribution and never
invoke the polygonizer; otherwise the engine polygonizer runs
(`extract`, `none` = nonzero `gdal.Polygonize` status = failure),
producing the features appended to the shared layer. -/
def polygonizeBand (extract : List Nat → Option (List Feature))
    (cutoff : Nat) (band : List Nat) : Option (List Feature) :=
  if countMeeting cutoff band = 0 then some []
  else extract band

/-- One step of the extraction loop: a raster that cannot be re-opened
or whose polygonization fails clears the all-ok flag but the loop
continues; a successful contribution is appended to the shared
layer. -/
def extractStep (extract : List Nat → Option (List Feature)) (cutoff : Nat)
    (band : Raster → List Nat) (acc : Bool × List Feature) (r : Raster) :
    Bool × List Feature :=
  if !r.openable then (false, acc.2)
  else
    match polygonizeBand extract cutoff (band r) with
    | none => (false, acc.2)
    | some fs => (acc.1, acc.2 ++ fs)

/-- The extraction fold over all input rasters for one class. -/
def extractClass (extract : List Nat → Option (List Feature)) (cutoff : Nat)
    (band : Raster → List Nat) (rs : List Raster) : Bool × List Feature :=
  rs.foldl (extractStep extract cutoff band) (true, [])

/-- Outcome of the per-class global post-processing gate. -/
inductive ClassOutcome where
  | skippedAfterFailure
  | emptyShortCircuit
  | ranStages (ok : Bool)
deriving DecidableEq, Repr

/-- The per-class post-processing gate of `run_processing`: if any
polygonization failed, skip post-processing and mark the class failed;
if the merged layer is empty, skip all stages and mark the class
successful; otherwise run the stage chain (abstracted as `stages`,
`none` = some stage returned failure). -/
def classPost (stages : List Feature → Option (List Feature))
    (allPolyOk : Bool) (layer : List Feature) :
    ClassOutcome × Bool × List Feature :=
  if !allPolyOk then (ClassOutcome.skippedAfterFailure, false, layer)
  else if layer.length = 0 then (ClassOutcome.emptyShortCircuit, true, layer)
  else
    match stages layer with
    | some final => (ClassOutcome.ranStages true, true, final)
    | none => (ClassOutcome.ranStages false, false, layer)

/-- Configuration of one run. -/
structure RunConfig where
  rasters : List Raster
  outputExists : Bool
  force : Bool
  cutoffRoads : Nat
  cutoffBuildings : Nat

/-- Engine oracles of one run: the polygonizer and the per-class
post-processing stage chains. -/
structure RunOracles where
  extract : List Nat → Option (List Feature)
  stagesRoads : List Feature → Option (List Feature)
  stagesBuildings : List Feature → Option (List Feature)

/-- Observable outcome of one run. -/
structure RunResult where
  outputCreated : Bool
  roadsOutcome : ClassOutcome
  successRoads : Bool
  roadsFeatures : List Feature
  buildingsOutcome : ClassOutcome
  successBuildings : Bool
  buildingsFeatures : List Feature
  overall : Bool
deriving Repr

/-- A run that terminates before the output container is created. -/
def abortedRun : RunResult :=
  { outputCreated := false
    roadsOutcome := ClassOutcome.skippedAfterFailure
    successRoads := false
    roadsFeatures := []
    buildingsOutcome := ClassOutcome.skippedAfterFailure
    successBuildings := false
    buildingsFeatures := []
    overall := false }

/-- The control flow of `run_processing`: refuse to overwrite an
existing output unless forced; validate all input rasters; only then
create the output container and the two layers; extract every raster
into the shared per-class layers; run the per-class post-processing
gates; overall success is the conjunction of the class successes. -/
def runProcessing (cfg : RunConfig) (oracles : RunOracles) : RunResult :=
  if cfg.outputExists && !cfg.force then abortedRun
  else if !validateRasters cfg.rasters then abortedRun
  else
    let roadsExtract := extractClass oracles.extract cfg.cutoffRoads Raster.band1 cfg.rasters
    let bldgExtract := extractClass oracles.extract cfg.cutoffBuildings Raster.band2 cfg.rasters
    let roads := classPost oracles.stagesRoads roadsExtract.1 roadsExtract.2
    let bldg := classPost oracles.stagesBuildings bldgExtract.1 bldgExtract.2
    { outputCreated := true
      roadsOutcome := roads.1
      successRoads := roads.2.1
      roadsFeatures := roads.2.2
      buildingsOutcome := bldg.1
      successBuildings := bldg.2.1
      buildingsFeatures := bldg.2.2
      overall := roads.2.1 && bldg.2.1 }

/-! ## Concrete instances used by counterexamples and witnesses -/

/-- The unit-square ring as an explicitly closed point sequence
(4 corners, 5 coordinates, `P[0] = P[n-1]`). -/
def unitSquareRing : List Pt := [(0, 0), (1, 0), (1, 1), (0, 1), (0, 0)]

/-- Concrete rewrite environment whose first delete raises. -/
def envDeleteThrows : RewriteEnv :=
  { startOk := true
    deleteRes := fun _ => OpResult.exn
    setGeomRes := fun _ => OpResult.ok
    createRes := fun _ => OpResult.ok
    commitOk := true }

/-- Concrete feature with no geometry. -/
def featNone : Feature := { geom := none, attrs := [] }

/-- Concrete valid non-empty multi-polygon geometry. -/
def validMultiPoly : Geom :=
  { gtype := GeomType.multiPolygon, empty := false, valid := true }

/-- Concrete invalid non-empty polygon geometry (for example a
self-intersecting bow-tie). -/
def invalidPoly : Geom :=
  { gtype := GeomType.polygon, empty := false, valid := false }

/-- Concrete valid polygon collection member. -/
def partPoly : SimpleGeom :=
  { gtype := GeomType.polygon, empty := false, valid := true }

/-- Concrete degenerate line collection member. -/
def partLine : SimpleGeom :=
  { gtype := GeomType.lineString, empty := false, valid := true }

/-- Concrete repair result: a geometry collection holding one valid
polygon and one degenerate line. -/
def collPolyLine : Geom :=
  { gtype := GeomType.geometryCollection, empty := false, valid := false,
    parts := [partPoly, partLine] }

/-- Repair oracle returning the polygon-plus-line collection. -/
def mvColl : Geom → Option Geom := fun _ => some collPolyLine

/-- Repair oracle that always fails. -/
def mvNone : Geom → Option Geom := fun _ => none

/-- Assembled-validity oracle that always answers true. -/
def mpvTrue : List SimpleGeom → Bool := fun _ => true

/-- Assembled-validity oracle that always answers false. -/
def mpvFalse : List SimpleGeom → Bool := fun _ => false

/-- Concrete feature with DN = 1 and a valid geometry. -/
def fKeep : Feature := { geom := some validMultiPoly, attrs := [("DN", 1)] }

/-- Concrete feature with DN = 0 and a valid geometry. -/
def fDrop : Feature := { geom := some validMultiPoly, attrs := [("DN", 0)] }

/-- Concrete raster with CRS descriptor 0 and all-zero bands. -/
def rasterA : Raster :=
  { openable := true
    srsOk := true
    bands := 2
    srs := 0
    band1 := [0, 0, 0, 0]
    band2 := [0, 0, 0, 0] }

/-- Concrete raster with CRS descriptor 1. -/
def rasterB : Raster :=
  { openable := true
    srsOk := true
    bands := 2
    srs := 1
    band1 := [200]
    band2 := [200] }

/-- Configuration with two rasters of differing CRS. -/
def cfgMismatch : RunConfig :=
  { rasters := [rasterA, rasterB]
    outputExists := false
    force := false
    cutoffRoads := 102
    cutoffBuildings := 102 }

/-- Configuration with one raster whose bands are all zero. -/
def cfgZero : RunConfig :=
  { rasters := [rasterA]
    outputExists := false
    force := false
    cutoffRoads := 102
    cutoffBuildings := 102 }

/-- Trivial engine oracles. -/
def trivialOracles : RunOracles :=
  { extract := fun _ => some []
    stagesRoads := fun l => some l
    stagesBuildings := fun l => some l }

/-! ## Supporting lemmas -/

lemma range_succ_flatMap {α : Type} (n : Nat) (f : Nat → List α) :
    (List.range (n + 1)).flatMap f = f 0 ++ (List.range n).flatMap (fun i => f (i + 1)) := by
  rw [List.range_succ_eq_map]
  simp [List.flatMap_cons, List.flatMap_map, Function.comp]

/-- The recursive segment loop of the code emits exactly the pairs the
spec describes, indexed over `i = 0..n-2` in segment order. -/
lemma chaikinSegPoints_eq_spec : ∀ pts : List Pt,
    chaikinSegPoints pts = chaikinSegPointsSpec pts
  | [] => by simp [chaikinSegPoints, chaikinSegPointsSpec]
  | [p] => by simp [chaikinSegPoints, chaikinSegPointsSpec]
  | p :: q :: rest => by
    have ih := chaikinSegPoints_eq_spec (q :: rest)
    show chaikinPair p q ++ chaikinSegPoints (q :: rest) = _
    rw [ih]
    simp only [chaikinSegPointsSpec, List.length_cons, Nat.add_sub_cancel]
    rw [range_succ_flatMap]
    simp [List.getD_cons_succ]

lemma chaikinSegPoints_length : ∀ pts : List Pt,
    (chaikinSegPoints pts).length = 2 * (pts.length - 1)
  | [] => by simp [chaikinSegPoints]
  | [p] => by simp [chaikinSegPoints]
  | p :: q :: rest => by
    have ih := chaikinSegPoints_length (q :: rest)
    show (chaikinPair p q ++ chaikinSegPoints (q :: rest)).length = _
    simp only [List.length_append, ih, chaikinPair, List.length_cons,
      List.length_nil, Nat.add_sub_cancel]
    omega

lemma chaikinSegPoints_ne_nil {pts : List Pt} (h : 2 ≤ pts.length) :
    chaikinSegPoints pts ≠ [] := by
  intro hnil
  have := chaikinSegPoints_length pts
  rw [hnil] at this
  simp at this
  omega

lemma chaikinIterOnce_length {pts : List Pt} (h : 2 ≤ pts.length) :
    (chaikinIterOnce pts).length = 2 * (pts.length - 1) + 1 := by
  unfold chaikinIterOnce
  rcases hseg : chaikinSegPoints pts with _ | ⟨t0, ts⟩
  · exact absurd hseg (chaikinSegPoints_ne_nil h)
  · have := chaikinSegPoints_length pts
    rw [hseg] at this
    simp only [List.length_append, List.length_cons, List.length_nil] at this ⊢
    omega

lemma chaikinLoop_succ (pts : List Pt) (k : Nat) :
    chaikinLoop pts (k + 1) =
      if pts.length < 4 then (pts, true)
      else
        match chaikinSegPoints pts with
        | [] => (pts, false)
        | t0 :: ts => chaikinLoop ((t0 :: ts) ++ [t0]) k := rfl

/-- Under the ≥ 4 precondition the loop never hits the early-stop
branch and the running point count never drops below 4. -/
lemma chaikinLoop_no_early_stop : ∀ (k : Nat) (pts : List Pt), 4 ≤ pts.length →
    (chaikinLoop pts k).2 = false ∧ 4 ≤ (chaikinLoop pts k).1.length
  | 0, pts, h => ⟨rfl, h⟩
  | k + 1, pts, h => by
    rw [chaikinLoop_succ]
    rw [if_neg (by omega)]
    rcases hseg : chaikinSegPoints pts with _ | ⟨t0, ts⟩
    · exact absurd hseg (chaikinSegPoints_ne_nil (by omega))
    · have hlen := chaikinSegPoints_length pts
      rw [hseg] at hlen
      simp only [List.length_cons] at hlen
      have hnext : 4 ≤ ((t0 :: ts) ++ [t0]).length := by
        simp only [List.length_append, List.length_cons, List.length_nil]
        omega
      exact chaikinLoop_no_early_stop k ((t0 :: ts) ++ [t0]) hnext

lemma applyChaikin_one {pts : List Pt} (h : 4 ≤ pts.length) :
    applyChaikinToRing pts 1 = chaikinIterOnce pts := by
  unfold applyChaikinToRing
  rw [if_neg (by omega)]
  show (chaikinLoop pts 1).1 = _
  rw [chaikinLoop_succ, if_neg (by omega)]
  unfold chaikinIterOnce
  rcases hseg : chaikinSegPoints pts with _ | ⟨t0, ts⟩
  · exact absurd hseg (chaikinSegPoints_ne_nil (by omega))
  · rfl

/-! ## Theorems -/

/-- C3 (counterexample): the claim states the cutoff is
`clamp(round(percent / 100 * 255), 0, 255)` for every percentage input,
but the code computes `int(percent / 100.0 * 255)`, which truncates.
At percent = 41 the exact value is 104.55: the code produces 104 while
the claimed rounding formula produces 105. -/
theorem threshold_cutoff_round_counterexample :
    thresholdCutoff 41 = 104 ∧ thresholdCutoffSpec 41 = 105 ∧
    thresholdCutoff 41 ≠ thresholdCutoffSpec 41 := by
  have h1 : thresholdCutoff 41 = 104 := by
    have : (0 : ℚ) ≤ 41 / 100 * 255 := by norm_num
    simp only [thresholdCutoff, pyIntTrunc, if_pos this]
    norm_num
  have h2 : thresholdCutoffSpec 41 = 105 := by
    simp only [thresholdCutoffSpec, round_eq]
    norm_num
  exact ⟨h1, h2, by rw [h1, h2]; decide⟩

/-- C3 (amended): for every non-negative percentage input the cutoff
equals `clamp(trunc(percent / 100 * 255), 0, 255)` — truncation toward
zero, i.e. the floor for non-negative inputs, not rounding to nearest;
a pixel belongs to the mask iff its integer value is ≥ the cutoff; and
for percent = 40 the cutoff is 102, so value 101 is excluded and value
102 is included. -/
theorem threshold_cutoff_trunc_correct (percent : ℚ) (hp : 0 ≤ percent) :
    thresholdCutoff percent = max 0 (min 255 ⌊percent / 100 * 255⌋) ∧
    (∀ c v : ℤ, maskMember c v = true ↔ c ≤ v) ∧
    thresholdCutoff 40 = 102 ∧
    maskMember (thresholdCutoff 40) 101 = false ∧
    maskMember (thresholdCutoff 40) 102 = true := by
  have h40 : thresholdCutoff 40 = 102 := by
    have : (0 : ℚ) ≤ 40 / 100 * 255 := by norm_num
    simp only [thresholdCutoff, pyIntTrunc, if_pos this]
    norm_num
  refine ⟨?_, ?_, h40, by rw [h40]; decide, by rw [h40]; decide⟩
  · have hq : (0 : ℚ) ≤ percent / 100 * 255 := by positivity
    simp [thresholdCutoff, pyIntTrunc, hq]
  · intro c v
    simp [maskMember]

/-- Witness for the amended C3 theorem at percent = 40. -/
theorem threshold_cutoff_trunc_correct_witness :
    thresholdCutoff 40 = max 0 (min 255 ⌊(40 : ℚ) / 100 * 255⌋) ∧
    thresholdCutoff 40 = 102 := by
  have h := threshold_cutoff_trunc_correct 40 (by norm_num)
  exact ⟨h.1, h.2.2.1⟩

/-- C4 (counterexample): on the explicitly closed unit-square ring one
Chaikin iteration returns a sequence of 9 points — the 8 emitted points
plus the appended closing point — not 8 as the claim states (the
sequence is indeed closed). -/
theorem chaikin_unit_square_counterexample :
    (applyChaikinToRing unitSquareRing 1).length = 9 ∧
    (applyChaikinToRing unitSquareRing 1).length ≠ 8 ∧
    (applyChaikinToRing unitSquareRing 1).head? =
      (applyChaikinToRing unitSquareRing 1).getLast? :=
  ⟨rfl, by decide, rfl⟩

/-- C4 (amended): one Chaikin iteration on an explicitly closed ring of
n ≥ 4 points emits, for each consecutive pair `(P[i], P[i+1])` with
`i = 0..n-2`, the points `0.75·P[i]+0.25·P[i+1]` then
`0.25·P[i]+0.75·P[i+1]` in segment order, and closes the result by
appending its first point, so the output has `2·(n-1)+1` points and is
closed; for the 4-corner unit-square ring (5 closed coordinates) and 1
iteration the output has 9 points (4 segments × 2 emitted points, plus
the appended closing point) and is closed. -/
theorem chaikin_iteration_correct :
    (∀ pts : List Pt, 4 ≤ pts.length →
      chaikinSegPoints pts = chaikinSegPointsSpec pts ∧
      (∀ t0 ts, chaikinSegPointsSpec pts = t0 :: ts →
        applyChaikinToRing pts 1 = (t0 :: ts) ++ [t0]) ∧
      (applyChaikinToRing pts 1).length = 2 * (pts.length - 1) + 1 ∧
      (applyChaikinToRing pts 1).head? = (applyChaikinToRing pts 1).getLast?) ∧
    (applyChaikinToRing unitSquareRing 1).length = 9 ∧
    (applyChaikinToRing unitSquareRing 1).head? =
      (applyChaikinToRing unitSquareRing 1).getLast? := by
  refine ⟨?_, rfl, rfl⟩
  intro pts h
  have h2 : 2 ≤ pts.length := by omega
  have hone := applyChaikin_one h
  refine ⟨chaikinSegPoints_eq_spec pts, ?_, ?_, ?_⟩
  · intro t0 ts hspec
    rw [hone]
    unfold chaikinIterOnce
    rw [chaikinSegPoints_eq_spec pts, hspec]
  · rw [hone]
    exact chaikinIterOnce_length h2
  · rw [hone]
    unfold chaikinIterOnce
    rcases hseg : chaikinSegPoints pts with _ | ⟨t0, ts⟩
    · exact absurd hseg (chaikinSegPoints_ne_nil h2)
    · show ((t0 :: ts) ++ [t0]).head? = ((t0 :: ts) ++ [t0]).getLast?
      rw [List.getLast?_concat]
      rfl

/-- Witness for the amended C4 theorem at the unit-square ring. -/
theorem chaikin_iteration_correct_witness :
    (applyChaikinToRing unitSquareRing 1).length = 2 * (unitSquareRing.length - 1) + 1 :=
  (chaikin_iteration_correct.1 unitSquareRing (by decide)).2.2.1

/-- C9: each Chaikin iteration turns n points into `2·(n-1)+1` points,
which is ≥ n for every n ≥ 2, so from an input of at least 4 points the
running point count never drops below 4 and the in-loop early-stop
branch (reported in the loop's second component) is never taken. -/
theorem chaikin_early_stop_unreachable :
    (∀ pts : List Pt, 2 ≤ pts.length →
      (chaikinIterOnce pts).length = 2 * (pts.length - 1) + 1 ∧
      pts.length ≤ (chaikinIterOnce pts).length) ∧
    (∀ (pts : List Pt) (k : Nat), 4 ≤ pts.length →
      (chaikinLoop pts k).2 = false ∧ 4 ≤ (chaikinLoop pts k).1.length) := by
  constructor
  · intro pts h2
    have := chaikinIterOnce_length h2
    constructor
    · exact this
    · omega
  · intro pts k h
    exact chaikinLoop_no_early_stop k pts h

/-- Witness for the C9 theorem: 3 iterations on the unit-square ring
take no early stop. -/
theorem chaikin_early_stop_unreachable_witness :
    (chaikinLoop unitSquareRing 3).2 = false ∧
    4 ≤ (chaikinLoop unitSquareRing 3).1.length :=
  chaikin_early_stop_unreachable.2 unitSquareRing 3 (by decide)

lemma clearAndRepopulate_not_fast (env : RewriteEnv) (schema : List String)
    (layer featuresData : List Feature)
    (h : ¬(featuresData.length = 0 ∧ layer.length = 0)) :
    clearAndRepopulate env schema layer featuresData =
      match clearPhase env layer with
      | none => (false, layer)
      | some survivors =>
        match runAdd env schema featuresData 0 with
        | none => (false, layer)
        | some added =>
          if env.commitOk then (true, survivors ++ added) else (false, layer) := by
  unfold clearAndRepopulate
  rw [if_neg h]

lemma clearAndRepopulate_clear_none (env : RewriteEnv) (schema : List String)
    (layer featuresData : List Feature)
    (h : ¬(featuresData.length = 0 ∧ layer.length = 0))
    (hclear : clearPhase env layer = none) :
    clearAndRepopulate env schema layer featuresData = (false, layer) := by
  rw [clearAndRepopulate_not_fast env schema layer featuresData h, hclear]

lemma clearAndRepopulate_add_none (env : RewriteEnv) (schema : List String)
    (layer featuresData : List Feature) (survivors : List Feature)
    (h : ¬(featuresData.length = 0 ∧ layer.length = 0))
    (hclear : clearPhase env layer = some survivors)
    (hadd : runAdd env schema featuresData 0 = none) :
    clearAndRepopulate env schema layer featuresData = (false, layer) := by
  rw [clearAndRepopulate_not_fast env schema layer featuresData h, hclear, hadd]

lemma clearAndRepopulate_commit (env : RewriteEnv) (schema : List String)
    (layer featuresData : List Feature) (survivors added : List Feature)
    (h : ¬(featuresData.length = 0 ∧ layer.length = 0))
    (hclear : clearPhase env layer = some survivors)
    (hadd : runAdd env schema featuresData 0 = some added) :
    clearAndRepopulate env schema layer featuresData =
      if env.commitOk then (true, survivors ++ added) else (false, layer) := by
  rw [clearAndRepopulate_not_fast env schema layer featuresData h, hclear, hadd]

/-- C1: the transactional contract of `clear_and_repopulate_layer`.
With both the layer and the candidate list empty the call is a
successful no-op.  Otherwise: an exception raised while clearing or
while adding rolls the transaction back, the call reports failure and
the layer is in its pre-call state (any failing call leaves the layer
in its pre-call state, never partially rewritten); the call reports
success iff the commit succeeded; and on a successful commit the final
content is the clear-phase survivors plus the created features — a
mismatch between the requested and actually-added counts does not by
itself cause failure. -/
theorem clear_and_repopulate_transactional (env : RewriteEnv) (schema : List String)
    (layer featuresData : List Feature) :
    (layer = [] ∧ featuresData = [] →
      clearAndRepopulate env schema layer featuresData = (true, layer)) ∧
    ((clearAndRepopulate env schema layer featuresData).1 = false →
      (clearAndRepopulate env schema layer featuresData).2 = layer) ∧
    (¬(featuresData.length = 0 ∧ layer.length = 0) → clearPhase env layer = none →
      clearAndRepopulate env schema layer featuresData = (false, layer)) ∧
    (¬(featuresData.length = 0 ∧ layer.length = 0) →
      runAdd env schema featuresData 0 = none →
      clearAndRepopulate env schema layer featuresData = (false, layer)) ∧
    (¬(featuresData.length = 0 ∧ layer.length = 0) →
      ((clearAndRepopulate env schema layer featuresData).1 = true ↔
        clearPhase env layer ≠ none ∧ runAdd env schema featuresData 0 ≠ none ∧
          env.commitOk = true)) ∧
    (∀ survivors added, clearPhase env layer = some survivors →
      runAdd env schema featuresData 0 = some added → env.commitOk = true →
      clearAndRepopulate env schema layer featuresData = (true, survivors ++ added)) := by
  by_cases hfast : featuresData.length = 0 ∧ layer.length = 0
  · have hl : layer = [] := List.length_eq_zero.mp hfast.2
    have hd : featuresData = [] := List.length_eq_zero.mp hfast.1
    subst hl hd
    have hr : clearAndRepopulate env schema [] [] = (true, []) := by
      unfold clearAndRepopulate
      simp
    refine ⟨fun _ => hr, ?_, ?_, ?_, ?_, ?_⟩
    · intro hfalse
      rw [hr] at hfalse
      exact absurd hfalse (by simp)
    · intro hne
      exact absurd ⟨rfl, rfl⟩ hne
    · intro hne
      exact absurd ⟨rfl, rfl⟩ hne
    · intro hne
      exact absurd ⟨rfl, rfl⟩ hne
    · intro survivors added hs ha _
      have hs0 : survivors = [] := by
        unfold clearPhase runClear at hs
        by_cases hst : env.startOk
        · rw [if_pos hst] at hs
          exact (Option.some_injective _ hs).symm
        · rw [if_neg hst] at hs
          exact absurd hs (by simp)
      have ha0 : added = [] := by
        unfold runAdd at ha
        exact (Option.some_injective _ ha).symm
      subst hs0 ha0
      simpa using hr
  · rcases Option.eq_none_or_eq_some (clearPhase env layer) with hclear | ⟨survivors, hclear⟩
    · have hr := clearAndRepopulate_clear_none env schema layer featuresData hfast hclear
      refine ⟨?_, ?_, fun _ _ => hr, fun _ _ => hr, ?_, ?_⟩
      · intro hempty
        exact absurd ⟨by simp [hempty.2], by simp [hempty.1]⟩ hfast
      · intro _
        rw [hr]
      · intro _
        rw [hr]
        simp [hclear]
      · intro s a hs
        rw [hclear] at hs
        exact absurd hs (by simp)
    · rcases Option.eq_none_or_eq_some (runAdd env schema featuresData 0) with hadd | ⟨added, hadd⟩
      · have hr := clearAndRepopulate_add_none env schema layer featuresData survivors
          hfast hclear hadd
        refine ⟨?_, ?_, fun _ _ => hr, fun _ _ => hr, ?_, ?_⟩
        · intro hempty
          exact absurd ⟨by simp [hempty.2], by simp [hempty.1]⟩ hfast
        · intro _
          rw [hr]
        · intro _
          rw [hr]
          simp [hadd]
        · intro s a _ ha
          rw [hadd] at ha
          exact absurd ha (by simp)
      · have hr := clearAndRepopulate_commit env schema layer featuresData survivors added
          hfast hclear hadd
        by_cases hc : env.commitOk = true
        · have hr2 : clearAndRepopulate env schema layer featuresData =
              (true, survivors ++ added) := by
            rw [hr, if_pos hc]
          refine ⟨?_, ?_, ?_, ?_, ?_, ?_⟩
          · intro hempty
            exact absurd ⟨by simp [hempty.2], by simp [hempty.1]⟩ hfast
          · intro hfalse
            rw [hr2] at hfalse
            exact absurd hfalse (by simp)
          · intro _ hnone
            rw [hclear] at hnone
            exact absurd hnone (by simp)
          · intro _ hnone
            rw [hadd] at hnone
            exact absurd hnone (by simp)
          · intro _
            rw [hr2]
            simp [hclear, hadd, hc]
          · intro s a hs ha _
            rw [hclear] at hs
            rw [hadd] at ha
            obtain rfl : survivors = s := Option.some_injective _ hs
            obtain rfl : added = a := Option.some_injective _ ha
            exact hr2
        · have hr2 : clearAndRepopulate env schema layer featuresData = (false, layer) := by
            rw [hr, if_neg hc]
          refine ⟨?_, ?_, fun _ _ => hr2, fun _ _ => hr2, ?_, ?_⟩
          · intro hempty
            exact absurd ⟨by simp [hempty.2], by simp [hempty.1]⟩ hfast
          · intro _
            rw [hr2]
          · intro _
            rw [hr2]
            simp [hc]
          · intro s a _ _ hcommit
            exact absurd hcommit hc

/-- Witness for the C1 theorem: a delete exception on a one-feature
layer makes the call fail with the layer unchanged. -/
theorem clear_and_repopulate_transactional_witness :
    clearAndRepopulate envDeleteThrows [] [featNone] [] = (false, [featNone]) :=
  (clear_and_repopulate_transactional envDeleteThrows [] [featNone] []).2.2.1
    (by simp) rfl

lemma fixGeometry_kept_valid (t : GeomType) (mv : Geom → Option Geom)
    (mpv : List SimpleGeom → Bool) (g h : Geom) (r : Bool)
    (heq : fixGeometry t mv mpv g = FixOutcome.kept h r) : h.valid = true := by
  unfold fixGeometry at heq
  split at heq
  · cases heq
  · split at heq
    next hvalid =>
      cases heq
      exact hvalid
    · split at heq
      · cases heq
      next repaired _ =>
        split at heq
        · cases heq
        · split at heq
          · split at heq
            next hrv =>
              cases heq
              exact hrv
            · cases heq
          · split at heq
            · split at heq
              · cases heq
              · split at heq
                · cases heq
                  rfl
                · cases heq
            · cases heq

lemma fixFeatureGeom_kept_valid (t : GeomType) (mv : Geom → Option Geom)
    (mpv : List SimpleGeom → Bool) (og : Option Geom) (h : Geom) (r : Bool)
    (heq : fixFeatureGeom t mv mpv og = FixOutcome.kept h r) : h.valid = true := by
  cases og with
  | none => cases heq
  | some g => exact fixGeometry_kept_valid t mv mpv g h r heq

lemma repopulateOne_geom_none {schema : List String} {d : Feature}
    (hdg : d.geom = none) : repopulateOne schema d = none := by
  unfold repopulateOne
  rw [hdg]

lemma repopulateOne_geom_empty {schema : List String} {d : Feature} {g : Geom}
    (hdg : d.geom = some g) (hge : g.empty = true) : repopulateOne schema d = none := by
  unfold repopulateOne
  rw [hdg]
  show (if g.empty then none
    else some (Feature.mk (some g) (d.attrs.filter (fun p => schema.contains p.1)))) = none
  rw [if_pos hge]

lemma repopulateOne_geom_some {schema : List String} {d : Feature} {g : Geom}
    (hdg : d.geom = some g) (hge : g.empty = false) :
    repopulateOne schema d =
      some (Feature.mk (some g) (d.attrs.filter (fun p => schema.contains p.1))) := by
  unfold repopulateOne
  rw [hdg]
  show (if g.empty then none
    else some (Feature.mk (some g) (d.attrs.filter (fun p => schema.contains p.1)))) = _
  rw [if_neg (by simp [hge])]

lemma mem_repopulateData {schema : List String} {data : List Feature} {f : Feature}
    (hf : f ∈ repopulateData schema data) :
    ∃ d ∈ data, ∃ g, d.geom = some g ∧ g.empty = false ∧
      f = { geom := some g, attrs := d.attrs.filter (fun p => schema.contains p.1) } := by
  unfold repopulateData at hf
  rw [List.mem_filterMap] at hf
  obtain ⟨d, hd, hsome⟩ := hf
  refine ⟨d, hd, ?_⟩
  rcases hdg : d.geom with _ | g
  · rw [repopulateOne_geom_none hdg] at hsome
    cases hsome
  · by_cases hge : g.empty = true
    · rw [repopulateOne_geom_empty hdg hge] at hsome
      cases hsome
    · have hge2 : g.empty = false := by simpa using hge
      rw [repopulateOne_geom_some hdg hge2] at hsome
      exact ⟨g, rfl, hge2, (Option.some_injective _ hsome).symm⟩

lemma mem_fixCandidates {t : GeomType} {mv : Geom → Option Geom}
    {mpv : List SimpleGeom → Bool} {schema : List String}
    {features : List Feature} {d : Feature}
    (hd : d ∈ fixCandidates t mv mpv schema features) :
    ∃ f0 ∈ features, ∃ g r, fixFeatureGeom t mv mpv f0.geom = FixOutcome.kept g r ∧
      d = { geom := some g, attrs := attrsOf schema f0 } := by
  unfold fixCandidates at hd
  rw [List.mem_filterMap] at hd
  obtain ⟨f0, hf0, hsome⟩ := hd
  refine ⟨f0, hf0, ?_⟩
  cases hout : fixFeatureGeom t mv mpv f0.geom with
  | kept g r =>
    rw [hout] at hsome
    have hsome2 : some ({ geom := some g, attrs := attrsOf schema f0 } : Feature) = some d :=
      hsome
    exact ⟨g, r, rfl, (Option.some_injective _ hsome2).symm⟩
  | discard =>
    rw [hout] at hsome
    have hsome2 : (none : Option Feature) = some d := hsome
    cases hsome2

/-- C2: the repair invariant of `fix_layer_geometries`.  Every feature
remaining in the layer after a successful run has a present, valid
geometry; an already valid non-empty geometry is kept as-is (and not
counted as repaired); and any kept geometry — repaired in place or
assembled from the valid polygon members of a repair collection — is
valid, so an invalid geometry whose repair result is not valid is
discarded. -/
theorem fix_layer_geometries_validity (t : GeomType) (mv : Geom → Option Geom)
    (mpv : List SimpleGeom → Bool) (schema : List String) (features : List Feature) :
    (∀ f ∈ fixStage t mv mpv schema features, ∃ g, f.geom = some g ∧ g.valid = true) ∧
    (∀ g : Geom, g.valid = true → g.empty = false →
      fixGeometry t mv mpv g = FixOutcome.kept g false) ∧
    (∀ g h r, fixGeometry t mv mpv g = FixOutcome.kept h r → h.valid = true) := by
  refine ⟨?_, ?_, fun g h r => fixGeometry_kept_valid t mv mpv g h r⟩
  · intro f hf
    unfold fixStage at hf
    by_cases hemp : features.length = 0
    · rw [if_pos hemp] at hf
      rw [List.length_eq_zero.mp hemp] at hf
      cases hf
    · rw [if_neg hemp] at hf
      obtain ⟨d, hd, g, hdg, hge, rfl⟩ := mem_repopulateData hf
      refine ⟨g, rfl, ?_⟩
      obtain ⟨f0, _, g0, r0, hout, rfl⟩ := mem_fixCandidates hd
      have hgeq : some g0 = some g := hdg
      obtain rfl : g0 = g := Option.some_injective _ hgeq
      exact fixFeatureGeom_kept_valid t mv mpv f0.geom _ r0 hout
  · intro g hv he
    unfold fixGeometry
    rw [if_neg (by rw [he]; simp), if_pos hv]

/-- Witness for the C2 theorem: a valid non-empty multi-polygon is
kept unchanged even under an always-failing repair oracle. -/
theorem fix_layer_geometries_validity_witness :
    fixGeometry GeomType.multiPolygon mvNone mpvFalse validMultiPoly =
      FixOutcome.kept validMultiPoly false :=
  (fix_layer_geometries_validity GeomType.multiPolygon mvNone mpvFalse [] []).2.1
    validMultiPoly rfl rfl

/-- C5: the geometry-collection branch of `fix_layer_geometries`.  For
an invalid, non-empty geometry whose repair yields a non-empty
geometry collection (target type multi-polygon), the feature is kept —
as the multi-polygon assembled from exactly the valid polygon members,
counted as repaired — iff at least one valid polygon member was
extracted and the assembled multi-polygon is itself valid; otherwise
the feature is discarded. -/
theorem geometry_collection_extraction (mv : Geom → Option Geom)
    (mpv : List SimpleGeom → Bool) (g repaired : Geom)
    (hge : g.empty = false) (hgv : g.valid = false)
    (hmv : mv g = some repaired) (hre : repaired.empty = false)
    (hrt : repaired.gtype = GeomType.geometryCollection) :
    (fixGeometry GeomType.multiPolygon mv mpv g =
        FixOutcome.kept (Geom.mk GeomType.multiPolygon false true (validPolygonParts repaired)) true
      ↔ validPolygonParts repaired ≠ [] ∧ mpv (validPolygonParts repaired) = true) ∧
    (validPolygonParts repaired = [] ∨ mpv (validPolygonParts repaired) = false →
      fixGeometry GeomType.multiPolygon mv mpv g = FixOutcome.discard) := by
  have hred : fixGeometry GeomType.multiPolygon mv mpv g =
      (if validPolygonParts repaired = [] then FixOutcome.discard
       else if mpv (validPolygonParts repaired) then
         FixOutcome.kept (Geom.mk GeomType.multiPolygon false true (validPolygonParts repaired)) true
       else FixOutcome.discard) := by
    unfold fixGeometry
    rw [hmv]
    simp [hge, hgv, hre, hrt]
  rw [hred]
  constructor
  · by_cases hps : validPolygonParts repaired = []
    · rw [if_pos hps]
      constructor
      · intro h
        cases h
      · intro h
        exact absurd hps h.1
    · rw [if_neg hps]
      by_cases hmpv : mpv (validPolygonParts repaired) = true
      · rw [if_pos hmpv]
        exact ⟨fun _ => ⟨hps, hmpv⟩, fun _ => rfl⟩
      · rw [if_neg hmpv]
        constructor
        · intro h
          cases h
        · intro h
          exact absurd h.2 hmpv
  · intro h
    rcases h with hps | hmpv
    · rw [if_pos hps]
    · by_cases hps : validPolygonParts repaired = []
      · rw [if_pos hps]
      · rw [if_neg hps, if_neg (by simp [hmpv])]

/-- Witness for the C5 theorem (Scenario E): an invalid polygon whose
repair yields a collection of one valid polygon and one degenerate
line is kept as a multi-polygon containing only the extracted
polygon. -/
theorem geometry_collection_extraction_witness :
    fixGeometry GeomType.multiPolygon mvColl mpvTrue invalidPoly =
      FixOutcome.kept (Geom.mk GeomType.multiPolygon false true [partPoly]) true := by
  have h := (geometry_collection_extraction mvColl mpvTrue invalidPoly collPolyLine
    rfl rfl rfl rfl rfl).1.mpr ⟨by decide, rfl⟩
  exact h

lemma lookup_attrsOf : ∀ (schema : List String) (f : Feature) (n : String), n ∈ schema →
    (attrsOf schema f).lookup n = some (getField f n)
  | [], _, _, hn => absurd hn (List.not_mem_nil _)
  | m :: rest, f, n, hn => by
    by_cases hnm : n = m
    · subst hnm
      simp [attrsOf, List.lookup]
    · have hn2 : n ∈ rest := by
        rcases List.mem_cons.mp hn with h | h
        · exact absurd h hnm
        · exact h
      have ih := lookup_attrsOf rest f n hn2
      have hbeq : (n == m) = false := by simp [hnm]
      simp only [attrsOf, List.map_cons, List.lookup, hbeq]
      exact ih

lemma getField_mk_attrsOf (schema : List String) (og : Option Geom) (f : Feature)
    (n : String) (hn : n ∈ schema) :
    getField (Feature.mk og (attrsOf schema f)) n = getField f n := by
  show ((attrsOf schema f).lookup n).getD 0 = _
  rw [lookup_attrsOf schema f n hn]
  rfl

lemma filter_contains_attrsOf (schema : List String) (f : Feature) :
    (attrsOf schema f).filter (fun p => schema.contains p.1) = attrsOf schema f := by
  apply List.filter_eq_self.mpr
  intro p hp
  unfold attrsOf at hp
  rw [List.mem_map] at hp
  obtain ⟨n, hn, rfl⟩ := hp
  exact List.elem_eq_true_of_mem hn

lemma filter_eq_self_of_length {α : Type} (p : α → Bool) :
    ∀ l : List α, (l.filter p).length = l.length → l.filter p = l
  | [], _ => rfl
  | a :: l, h => by
    by_cases hpa : p a = true
    · rw [List.filter_cons_of_pos hpa] at h ⊢
      simp only [List.length_cons] at h
      rw [filter_eq_self_of_length p l (by omega)]
    · rw [List.filter_cons_of_neg hpa] at h
      have hle := List.length_filter_le p l
      simp only [List.length_cons] at h
      omega

lemma repopulateData_dn_candidates (schema : List String) (keepVal : Int) :
    ∀ kept : List Feature, (∀ f ∈ kept, dnKeep keepVal f = true) →
      repopulateData schema (kept.map (fun f => Feature.mk f.geom (attrsOf schema f))) =
        kept.map (fun f => Feature.mk f.geom (attrsOf schema f))
  | [], _ => rfl
  | f :: rest, h => by
    have hf := h f (List.mem_cons_self f rest)
    unfold dnKeep at hf
    rcases hfg : f.geom with _ | g
    · rw [hfg] at hf
      simp at hf
    · rw [hfg] at hf
      obtain ⟨hdn, hge, hgv⟩ :
          getField f "DN" = keepVal ∧ g.empty = false ∧ g.valid = true := by
        simpa using hf
      have ih := repopulateData_dn_candidates schema keepVal rest
        (fun x hx => h x (List.mem_cons_of_mem f hx))
      have hfg2 : (Feature.mk f.geom (attrsOf schema f)).geom = some g := hfg
      show repopulateData schema
          (Feature.mk f.geom (attrsOf schema f) ::
            rest.map (fun f => Feature.mk f.geom (attrsOf schema f))) = _
      unfold repopulateData
      rw [List.filterMap_cons, repopulateOne_geom_some hfg2 hge]
      show Feature.mk (some g)
            (((Feature.mk f.geom (attrsOf schema f)).attrs).filter
              (fun p => schema.contains p.1)) ::
          repopulateData schema (rest.map (fun f => Feature.mk f.geom (attrsOf schema f))) = _
      rw [ih]
      show Feature.mk (some g) ((attrsOf schema f).filter (fun p => schema.contains p.1)) ::
          rest.map (fun f => Feature.mk f.geom (attrsOf schema f)) = _
      rw [filter_contains_attrsOf, ← hfg, List.map_cons]

/-- C6 (counterexample): on an empty layer `filter_layer_by_dn`
returns success before ever consulting the schema, so a layer whose
schema lacks a DN field does not make it fail. -/
theorem filter_layer_by_dn_empty_counterexample :
    ([] : List String).contains "DN" = false ∧
    filterLayerByDn [] 1 [] = some [] ∧
    filterLayerByDn [] 1 [] ≠ none :=
  ⟨rfl, rfl, by decide⟩

lemma dnKeep_unpack {keepVal : Int} {f : Feature} (h : dnKeep keepVal f = true) :
    getField f "DN" = keepVal ∧ ∃ g, f.geom = some g ∧ g.empty = false ∧ g.valid = true := by
  unfold dnKeep at h
  rcases hfg : f.geom with _ | g
  · rw [hfg] at h
    simp at h
  · rw [hfg] at h
    obtain ⟨hdn, hge, hgv⟩ : getField f "DN" = keepVal ∧ g.empty = false ∧ g.valid = true := by
      simpa using h
    exact ⟨hdn, g, rfl, hge, hgv⟩

/-- C6 (amended): when the layer is non-empty and the schema lacks a
DN field, `filter_layer_by_dn` fails immediately without filtering (an
empty layer returns success before the schema is consulted).  When the
schema has a DN field the call succeeds and keeps exactly the features
whose DN field equals the target value and whose geometry is present,
non-empty and valid — either by leaving the layer untouched when every
feature qualifies, or by rewriting it to the qualifying features — so
every remaining feature has DN equal to the target value and a valid
non-empty geometry. -/
theorem filter_layer_by_dn_correct (schema : List String) (keepVal : Int)
    (features : List Feature) :
    (features ≠ [] → schema.contains "DN" = false →
      filterLayerByDn schema keepVal features = none) ∧
    (schema.contains "DN" = true →
      (filterLayerByDn schema keepVal features = some features ∧
        features.filter (dnKeep keepVal) = features) ∨
      filterLayerByDn schema keepVal features =
        some ((features.filter (dnKeep keepVal)).map
          (fun f => Feature.mk f.geom (attrsOf schema f)))) ∧
    (∀ out, filterLayerByDn schema keepVal features = some out →
      ∀ f ∈ out, getField f "DN" = keepVal ∧
        ∃ g, f.geom = some g ∧ g.empty = false ∧ g.valid = true) := by
  have h1 : features ≠ [] → schema.contains "DN" = false →
      filterLayerByDn schema keepVal features = none := by
    intro hne hdnf
    unfold filterLayerByDn
    rw [if_neg (fun h => hne (List.length_eq_zero.mp h)), if_pos (by rw [hdnf]; rfl)]
  have h2 : schema.contains "DN" = true →
      (filterLayerByDn schema keepVal features = some features ∧
        features.filter (dnKeep keepVal) = features) ∨
      filterLayerByDn schema keepVal features =
        some ((features.filter (dnKeep keepVal)).map
          (fun f => Feature.mk f.geom (attrsOf schema f))) := by
    intro hdn
    by_cases hemp : features.length = 0
    · left
      obtain rfl : features = [] := List.length_eq_zero.mp hemp
      exact ⟨rfl, rfl⟩
    · by_cases hall : (features.filter (dnKeep keepVal)).length = features.length
      · left
        refine ⟨?_, filter_eq_self_of_length _ features hall⟩
        unfold filterLayerByDn
        rw [if_neg hemp, if_neg (by rw [hdn]; simp)]
        show (if (features.filter (dnKeep keepVal)).length = features.length
          then some features
          else some (repopulateData schema ((features.filter (dnKeep keepVal)).map
            (fun f => Feature.mk f.geom (attrsOf schema f))))) = some features
        rw [if_pos hall]
      · right
        unfold filterLayerByDn
        rw [if_neg hemp, if_neg (by rw [hdn]; simp)]
        show (if (features.filter (dnKeep keepVal)).length = features.length
          then some features
          else some (repopulateData schema ((features.filter (dnKeep keepVal)).map
            (fun f => Feature.mk f.geom (attrsOf schema f))))) = _
        rw [if_neg hall, repopulateData_dn_candidates schema keepVal _
          (fun f hf => List.of_mem_filter hf)]
  refine ⟨h1, h2, ?_⟩
  intro out hout f hfout
  by_cases hemp : features.length = 0
  · obtain rfl : features = [] := List.length_eq_zero.mp hemp
    have h0 : filterLayerByDn schema keepVal [] = some [] := rfl
    rw [h0] at hout
    obtain rfl : ([] : List Feature) = out := Option.some_injective _ hout
    cases hfout
  · by_cases hdn : schema.contains "DN" = true
    · rcases h2 hdn with ⟨heq, hall⟩ | heq
      · rw [heq] at hout
        obtain rfl : features = out := Option.some_injective _ hout
        exact dnKeep_unpack (List.filter_eq_self.mp hall f hfout)
      · rw [heq] at hout
        obtain rfl : (features.filter (dnKeep keepVal)).map
            (fun f => Feature.mk f.geom (attrsOf schema f)) = out :=
          Option.some_injective _ hout
        rw [List.mem_map] at hfout
        obtain ⟨f0, hf0k, rfl⟩ := hfout
        obtain ⟨hdn0, g, hg, hge, hgv⟩ := dnKeep_unpack (List.of_mem_filter hf0k)
        constructor
        · rw [getField_mk_attrsOf schema f0.geom f0 "DN" (List.mem_of_elem_eq_true hdn)]
          exact hdn0
        · exact ⟨g, hg, hge, hgv⟩
    · have hdnf : schema.contains "DN" = false := by simpa using hdn
      have hnone := h1 (fun hfe => hemp (by simp [hfe])) hdnf
      rw [hnone] at hout
      cases hout

/-- Witness for the amended C6 theorem: filtering a two-feature layer
with DN values 1 and 0 keeps the DN = 1 feature with its attributes
and geometry intact. -/
theorem filter_layer_by_dn_correct_witness :
    getField fKeep "DN" = 1 ∧
    ∃ g, fKeep.geom = some g ∧ g.empty = false ∧ g.valid = true :=
  (filter_layer_by_dn_correct ["DN"] 1 [fKeep, fDrop]).2.2 [fKeep] (by decide) fKeep
    (by decide)

/-- C7: with two or more input rasters, a CRS differing from the first
raster's CRS makes the whole validation fail, and the run terminates
in failure with the output container never created. -/
theorem crs_mismatch_no_output (cfg : RunConfig) (oracles : RunOracles)
    (r0 : Raster) (rest : List Raster) (r : Raster)
    (hras : cfg.rasters = r0 :: rest) (hr : r ∈ rest) (hsrs : r.srs ≠ r0.srs) :
    validateRasters cfg.rasters = false ∧
    (runProcessing cfg oracles).outputCreated = false ∧
    (runProcessing cfg oracles).overall = false := by
  have hval : validateRasters cfg.rasters = false := by
    rw [hras]
    unfold validateRasters
    show (rasterOk r0 && rest.all (fun r2 => rasterOk r2 && (r2.srs == r0.srs))) = false
    have hallf : rest.all (fun r2 => rasterOk r2 && (r2.srs == r0.srs)) = false := by
      cases hx : rest.all (fun r2 => rasterOk r2 && (r2.srs == r0.srs)) with
      | false => rfl
      | true =>
        have hmem := List.all_eq_true.mp hx r hr
        simp at hmem
        exact absurd hmem.2 hsrs
    rw [hallf]
    simp
  have hrun : runProcessing cfg oracles = abortedRun := by
    unfold runProcessing
    by_cases hov : (cfg.outputExists && !cfg.force) = true
    · rw [if_pos hov]
    · rw [if_neg hov, if_pos (by rw [hval]; rfl)]
  exact ⟨hval, by rw [hrun]; rfl, by rw [hrun]; rfl⟩

/-- Witness for the C7 theorem: two concrete rasters with CRS
descriptors 0 and 1. -/
theorem crs_mismatch_no_output_witness :
    (runProcessing cfgMismatch trivialOracles).outputCreated = false ∧
    (runProcessing cfgMismatch trivialOracles).overall = false :=
  have h := crs_mismatch_no_output cfgMismatch trivialOracles rasterA [rasterB] rasterB
    rfl (List.mem_cons_self rasterB []) (by decide)
  ⟨h.2.1, h.2.2⟩

lemma extractClass_empty (extract : List Nat → Option (List Feature)) (cutoff : Nat)
    (band : Raster → List Nat) :
    ∀ rs : List Raster, (∀ r ∈ rs, r.openable = true ∧ countMeeting cutoff (band r) = 0) →
      extractClass extract cutoff band rs = (true, [])
  | [], _ => rfl
  | r :: rs, h => by
    have hr := h r (List.mem_cons_self r rs)
    have hstep : extractStep extract cutoff band (true, []) r = (true, []) := by
      unfold extractStep
      rw [if_neg (by simp [hr.1])]
      have hpb : polygonizeBand extract cutoff (band r) = some [] := by
        unfold polygonizeBand
        rw [if_pos hr.2]
      rw [hpb]
      rfl
    have ih := extractClass_empty extract cutoff band rs
      (fun x hx => h x (List.mem_cons_of_mem r hx))
    unfold extractClass at ih ⊢
    rw [List.foldl_cons, hstep]
    exact ih

/-- C8: when zero pixels of a band meet the confidence cutoff the
extraction reports success with an empty contribution (the engine
polygonizer is not consulted); and when a class layer is empty after
extraction over all rasters of a validated run, the post-processing is
short-circuited and the class reports success with 0 features —
stated for the roads class, whose band is band 1. -/
theorem empty_mask_success :
    (∀ (extract : List Nat → Option (List Feature)) (cutoff : Nat) (band : List Nat),
      countMeeting cutoff band = 0 → polygonizeBand extract cutoff band = some []) ∧
    (∀ (cfg : RunConfig) (oracles : RunOracles),
      (cfg.outputExists && !cfg.force) = false →
      validateRasters cfg.rasters = true →
      (∀ r ∈ cfg.rasters, countMeeting cfg.cutoffRoads r.band1 = 0) →
      (runProcessing cfg oracles).roadsOutcome = ClassOutcome.emptyShortCircuit ∧
      (runProcessing cfg oracles).successRoads = true ∧
      (runProcessing cfg oracles).roadsFeatures = []) := by
  constructor
  · intro extract cutoff band h
    unfold polygonizeBand
    rw [if_pos h]
  · intro cfg oracles hov hval hzero
    have hopen : ∀ r ∈ cfg.rasters, r.openable = true := by
      intro r hr
      rcases hras : cfg.rasters with _ | ⟨r0, rest⟩
      · rw [hras] at hr
        cases hr
      · rw [hras] at hval hr
        unfold validateRasters at hval
        obtain ⟨h0, hrest⟩ : rasterOk r0 = true ∧
            rest.all (fun r2 => rasterOk r2 && (r2.srs == r0.srs)) = true := by
          simpa using hval
        rcases List.mem_cons.mp hr with rfl | hrr
        · have hok : (r.openable = true ∧ r.srsOk = true) ∧ 2 ≤ r.bands := by
            simpa [rasterOk] using h0
          exact hok.1.1
        · have hall := List.all_eq_true.mp hrest r hrr
          simp at hall
          have hok : (r.openable = true ∧ r.srsOk = true) ∧ 2 ≤ r.bands := by
            simpa [rasterOk] using hall.1
          exact hok.1.1
    have hfold : extractClass oracles.extract cfg.cutoffRoads Raster.band1 cfg.rasters =
        (true, []) :=
      extractClass_empty oracles.extract cfg.cutoffRoads Raster.band1 cfg.rasters
        (fun r hr => ⟨hopen r hr, hzero r hr⟩)
    unfold runProcessing
    rw [if_neg (by rw [hov]; simp), if_neg (by rw [hval]; simp), hfold]
    exact ⟨rfl, rfl, rfl⟩

/-- Witness for the C8 theorem: a single raster whose roads band is
all zero, with cutoff 102, reports roads success with 0 features. -/
theorem empty_mask_success_witness :
    (runProcessing cfgZero trivialOracles).successRoads = true ∧
    (runProcessing cfgZero trivialOracles).roadsFeatures = [] :=
  have h := empty_mask_success.2 cfgZero trivialOracles rfl (by decide) (by decide)
  ⟨h.2.1, h.2.2⟩

/-- Repopulation preserves the schema attributes of every candidate:
each repopulated feature reads every schema field exactly as the input
feature it came from. -/
lemma attrs_preserved_through (schema : List String) (features cands : List Feature)
    (hc : ∀ d ∈ cands, ∃ f ∈ features, d.attrs = attrsOf schema f) :
    ∀ g ∈ repopulateData schema cands, ∃ f ∈ features, ∀ n ∈ schema,
      getField g n = getField f n := by
  intro g hg
  obtain ⟨d, hd, g0, hdg, hge, rfl⟩ := mem_repopulateData hg
  obtain ⟨f, hf, hda⟩ := hc d hd
  refine ⟨f, hf, fun n hn => ?_⟩
  show getField (Feature.mk (some g0) (d.attrs.filter (fun p => schema.contains p.1))) n = _
  rw [hda, filter_contains_attrsOf]
  exact getField_mk_attrsOf schema (some g0) f n hn

/-- The two possible successful results of the DN filter: either the
layer is returned untouched, or the rewrite of the kept candidates. -/
lemma filterLayerByDn_some_shape {schema : List String} {keepVal : Int}
    {features out : List Feature}
    (hout : filterLayerByDn schema keepVal features = some out) :
    out = features ∨
    out = (features.filter (dnKeep keepVal)).map
      (fun f => Feature.mk f.geom (attrsOf schema f)) := by
  by_cases hemp : features.length = 0
  · left
    obtain rfl : features = [] := List.length_eq_zero.mp hemp
    have h0 : filterLayerByDn schema keepVal [] = some [] := rfl
    rw [h0] at hout
    exact (Option.some_injective _ hout).symm
  · by_cases hdn : schema.contains "DN" = true
    · by_cases hall : (features.filter (dnKeep keepVal)).length = features.length
      · left
        have heq : filterLayerByDn schema keepVal features = some features := by
          unfold filterLayerByDn
          rw [if_neg hemp, if_neg (by rw [hdn]; simp)]
          show (if (features.filter (dnKeep keepVal)).length = features.length
            then some features
            else some (repopulateData schema ((features.filter (dnKeep keepVal)).map
              (fun f => Feature.mk f.geom (attrsOf schema f))))) = some features
          rw [if_pos hall]
        rw [heq] at hout
        exact (Option.some_injective _ hout).symm
      · right
        have heq : filterLayerByDn schema keepVal features =
            some ((features.filter (dnKeep keepVal)).map
              (fun f => Feature.mk f.geom (attrsOf schema f))) := by
          unfold filterLayerByDn
          rw [if_neg hemp, if_neg (by rw [hdn]; simp)]
          show (if (features.filter (dnKeep keepVal)).length = features.length
            then some features
            else some (repopulateData schema ((features.filter (dnKeep keepVal)).map
              (fun f => Feature.mk f.geom (attrsOf schema f))))) = _
          rw [if_neg hall, repopulateData_dn_candidates schema keepVal _
            (fun f hf => List.of_mem_filter hf)]
        rw [heq] at hout
        exact (Option.some_injective _ hout).symm
    · have hdnf : schema.contains "DN" = false := by simpa using hdn
      have hnone : filterLayerByDn schema keepVal features = none := by
        unfold filterLayerByDn
        rw [if_neg hemp, if_pos (by rw [hdnf]; rfl)]
      rw [hnone] at hout
      cases hout

/-- C10: every stage preserves the schema attribute values of every
feature it keeps — the stage candidate sets carry the full attribute
dictionary read over the schema fields, and the repopulation primitive
sets exactly the attributes whose field name exists in the schema —
so each feature of the post-stage layer reads every schema field
exactly as some pre-stage feature. -/
theorem stages_preserve_attributes (schema : List String) (features : List Feature) :
    (∀ (tolerance : ℚ) (simplifyFn : Geom → Option Geom),
      ∀ g ∈ simplifyStage tolerance simplifyFn schema features, ∃ f ∈ features,
        ∀ n ∈ schema, getField g n = getField f n) ∧
    (∀ (minArea : ℚ) (areaFn : Geom → Option ℚ),
      ∀ g ∈ areaFilterStage minArea areaFn schema features, ∃ f ∈ features,
        ∀ n ∈ schema, getField g n = getField f n) ∧
    (∀ (t : GeomType) (mv : Geom → Option Geom) (mpv : List SimpleGeom → Bool),
      ∀ g ∈ fixStage t mv mpv schema features, ∃ f ∈ features,
        ∀ n ∈ schema, getField g n = getField f n) ∧
    (∀ smoothFn : Geom → Geom,
      ∀ g ∈ smoothStage smoothFn schema features, ∃ f ∈ features,
        ∀ n ∈ schema, getField g n = getField f n) ∧
    (∀ (keepVal : Int) (out : List Feature),
      filterLayerByDn schema keepVal features = some out →
      ∀ g ∈ out, ∃ f ∈ features, ∀ n ∈ schema, getField g n = getField f n) := by
  refine ⟨?_, ?_, ?_, ?_, ?_⟩
  · intro tolerance simplifyFn g hg
    unfold simplifyStage at hg
    by_cases h1 : tolerance ≤ 0
    · rw [if_pos h1] at hg
      exact ⟨g, hg, fun n _ => rfl⟩
    · rw [if_neg h1] at hg
      by_cases h2 : features.length = 0
      · rw [if_pos h2] at hg
        exact ⟨g, hg, fun n _ => rfl⟩
      · rw [if_neg h2] at hg
        refine attrs_preserved_through schema features _ ?_ g hg
        intro d hd
        rw [List.mem_map] at hd
        obtain ⟨f, hf, rfl⟩ := hd
        exact ⟨f, hf, rfl⟩
  · intro minArea areaFn g hg
    unfold areaFilterStage at hg
    by_cases h1 : minArea ≤ 0
    · rw [if_pos h1] at hg
      exact ⟨g, hg, fun n _ => rfl⟩
    · rw [if_neg h1] at hg
      by_cases h2 : features.length = 0
      · rw [if_pos h2] at hg
        exact ⟨g, hg, fun n _ => rfl⟩
      · rw [if_neg h2] at hg
        refine attrs_preserved_through schema features _ ?_ g hg
        intro d hd
        rw [List.mem_map] at hd
        obtain ⟨f, hf, rfl⟩ := hd
        exact ⟨f, List.mem_of_mem_filter hf, rfl⟩
  · intro t mv mpv g hg
    unfold fixStage at hg
    by_cases h2 : features.length = 0
    · rw [if_pos h2] at hg
      exact ⟨g, hg, fun n _ => rfl⟩
    · rw [if_neg h2] at hg
      refine attrs_preserved_through schema features _ ?_ g hg
      intro d hd
      obtain ⟨f0, hf0, g1, r1, hout, rfl⟩ := mem_fixCandidates hd
      exact ⟨f0, hf0, rfl⟩
  · intro smoothFn g hg
    unfold smoothStage at hg
    by_cases h2 : features.length = 0
    · rw [if_pos h2] at hg
      exact ⟨g, hg, fun n _ => rfl⟩
    · rw [if_neg h2] at hg
      refine attrs_preserved_through schema features _ ?_ g hg
      intro d hd
      rw [List.mem_map] at hd
      obtain ⟨f, hf, rfl⟩ := hd
      exact ⟨f, hf, rfl⟩
  · intro keepVal out hout g hg
    rcases filterLayerByDn_some_shape hout with rfl | rfl
    · exact ⟨g, hg, fun n _ => rfl⟩
    · rw [List.mem_map] at hg
      obtain ⟨f0, hf0, rfl⟩ := hg
      exact ⟨f0, List.mem_of_mem_filter hf0,
        fun n hn => getField_mk_attrsOf schema f0.geom f0 n hn⟩

/-- Witness for the C10 theorem: the simplify stage on a one-feature
layer leaves the DN attribute readable and unchanged. -/
theorem stages_preserve_attributes_witness :
    ∃ f ∈ [fKeep], ∀ n ∈ ["DN"], getField fKeep n = getField f n :=
  (stages_preserve_attributes ["DN"] [fKeep]).1 1 (fun g => some g) fKeep (by decide)

end TifVectors
